import Mathlib

/-!
Shallow embedding of the go-expanse genesis bootstrap (src/core/genesis.go)
and of the eth/exp RPC api facade (src/unnamed/part_000), together with
theorems settling the frozen claims about them.

Conventions: machine hashes and addresses are modelled as `Nat` (the code
treats them as opaque fixed-width byte strings); Go `*big.Int` values are
modelled as `Int`; fallible Go calls returning `(T, error)` are modelled as
`Except String T`, the `String` being the underlying error surfaced
unmodified.
-/

namespace GoExpanse

/-- A block as observed by the installer part of `WriteGenesisBlock`
(src/core/genesis.go lines 87-109): the code only uses `block.Hash()` and
`block.NumberU64()` there, so the model carries exactly those observables. -/
structure Block where
  hash : Nat
  number : Nat
deriving DecidableEq, Repr

/-- One write against the chain-index part of the database, mirroring the
four helpers called by `WriteGenesisBlock`: `WriteTd`, `WriteBlock`,
`WriteCanonicalHash` and `WriteHeadBlockHash`. -/
inductive WriteOp where
  | putTd (hash : Nat) (difficulty : Int)
  | putBlock (hash : Nat) (b : Block)
  | putCanonical (number : Nat) (hash : Nat)
  | putHead (hash : Nat)
deriving DecidableEq, Repr

/-- The chain index: the four independently keyed persistent records used by
`WriteGenesisBlock` (block by hash, total difficulty by hash, canonical hash
by number, and the single head-pointer record). -/
@[ext]
structure ChainIndex where
  blocks : Nat → Option Block
  td : Nat → Option Int
  canonical : Nat → Option Nat
  head : Option Nat

/-- The empty database: no record present under any key. -/
def emptyIndex : ChainIndex :=
  { blocks := fun _ => none, td := fun _ => none, canonical := fun _ => none, head := none }

/-- Effect of one successful chain-index write on the stored records.
Each write is a single independent key-value update. -/
def applyWrite (s : ChainIndex) : WriteOp → ChainIndex
  | .putTd h d => { s with td := fun h' => if h' = h then some d else s.td h' }
  | .putBlock h b => { s with blocks := fun h' => if h' = h then some b else s.blocks h' }
  | .putCanonical n h => { s with canonical := fun n' => if n' = n then some h else s.canonical n' }
  | .putHead h => { s with head := some h }

/-- Failure oracle of the underlying store: `fail op = some e` means the
write `op` fails with error `e` (and does not modify the store);
`none` means it succeeds.  `noFail` is the normally operating store. -/
def noFail : WriteOp → Option String := fun _ => none

/-- Outcome of one installer run: the `(*types.Block, error)` return value,
the final chain-index state, and the chain-index writes attempted in order. -/
structure InstallOut where
  result : Except String Block
  state : ChainIndex
  writes : List WriteOp

/-- The installer portion of `WriteGenesisBlock` (src/core/genesis.go lines
87-109), the spec's `Install(store, block, difficulty)`.  If `GetBlock`
finds the block's hash, only `WriteCanonicalHash` is issued (for the stored
block's number and hash, the source's shadowed `block`) and the stored block
is returned; otherwise `WriteTd`, `WriteBlock`, `WriteCanonicalHash`,
`WriteHeadBlockHash` are issued in order, each one returning its error and
aborting the sequence on failure, exactly as the source's `if err :=
...; err != nil` chain does. -/
def installGenesisBlock (fail : WriteOp → Option String) (s : ChainIndex)
    (b : Block) (d : Int) : InstallOut :=
  match s.blocks b.hash with
  | some stored =>
    match fail (WriteOp.putCanonical stored.number stored.hash) with
    | some e => ⟨.error e, s, [WriteOp.putCanonical stored.number stored.hash]⟩
    | none =>
      ⟨.ok stored, applyWrite s (WriteOp.putCanonical stored.number stored.hash),
        [WriteOp.putCanonical stored.number stored.hash]⟩
  | none =>
    match fail (WriteOp.putTd b.hash d) with
    | some e => ⟨.error e, s, [WriteOp.putTd b.hash d]⟩
    | none =>
      let s1 := applyWrite s (WriteOp.putTd b.hash d)
      match fail (WriteOp.putBlock b.hash b) with
      | some e => ⟨.error e, s1, [WriteOp.putTd b.hash d, WriteOp.putBlock b.hash b]⟩
      | none =>
        let s2 := applyWrite s1 (WriteOp.putBlock b.hash b)
        match fail (WriteOp.putCanonical b.number b.hash) with
        | some e =>
          ⟨.error e, s2,
            [WriteOp.putTd b.hash d, WriteOp.putBlock b.hash b,
              WriteOp.putCanonical b.number b.hash]⟩
        | none =>
          let s3 := applyWrite s2 (WriteOp.putCanonical b.number b.hash)
          match fail (WriteOp.putHead b.hash) with
          | some e =>
            ⟨.error e, s3,
              [WriteOp.putTd b.hash d, WriteOp.putBlock b.hash b,
                WriteOp.putCanonical b.number b.hash, WriteOp.putHead b.hash]⟩
          | none =>
            ⟨.ok b, applyWrite s3 (WriteOp.putHead b.hash),
              [WriteOp.putTd b.hash d, WriteOp.putBlock b.hash b,
                WriteOp.putCanonical b.number b.hash, WriteOp.putHead b.hash]⟩

/-- The four fresh-install writes of src/core/genesis.go lines 97-108, in
source order. -/
def installOps (b : Block) (d : Int) : List WriteOp :=
  [WriteOp.putTd b.hash d, WriteOp.putBlock b.hash b,
    WriteOp.putCanonical b.number b.hash, WriteOp.putHead b.hash]

/-- The `i`-th write of the fresh-install sequence. -/
def nthOp (b : Block) (d : Int) : Nat → WriteOp
  | 0 => WriteOp.putTd b.hash d
  | 1 => WriteOp.putBlock b.hash b
  | 2 => WriteOp.putCanonical b.number b.hash
  | _ => WriteOp.putHead b.hash

/-- Concrete genesis block used in the partial-failure scenarios. -/
def cBlock : Block := ⟨1, 0⟩

/-- Chain index after a run that crashed right after `WriteTd` and
`WriteBlock` succeeded (before the canonical and head writes). -/
def cCrashState : ChainIndex :=
  applyWrite (applyWrite emptyIndex (WriteOp.putTd 1 5)) (WriteOp.putBlock 1 cBlock)

/-- Numeric value of a hexadecimal digit character, `none` for any other
character.  This is the digit alphabet shared by the Go standard-library
parsers behind `common.String2Big` and `common.Hex2Bytes`. -/
def hexDigitVal (c : Char) : Option Nat :=
  if '0' ≤ c ∧ c ≤ '9' then some (c.toNat - 48)
  else if 'a' ≤ c ∧ c ≤ 'f' then some (c.toNat - 87)
  else if 'A' ≤ c ∧ c ≤ 'F' then some (c.toNat - 55)
  else none

/-- Digit value in a given base (digits beyond the base are rejected). -/
def digitVal (base : Nat) (c : Char) : Option Nat :=
  match hexDigitVal c with
  | some d => if d < base then some d else none
  | none => none

/-- Accumulating digit-string parser: fails on the first character that is
not a digit of the base. -/
def parseDigitsAux (base : Nat) : List Char → Nat → Option Nat
  | [], acc => some acc
  | c :: cs, acc =>
    match digitVal base c with
    | some d => parseDigitsAux base cs (acc * base + d)
    | none => none

/-- Parse a non-empty digit string in the given base. -/
def parseDigits (base : Nat) (cs : List Char) : Option Nat :=
  match cs with
  | [] => none
  | _ => parseDigitsAux base cs 0

/-- Modelled from the spec: `common.String2Big` is not under src/ (only its
call sites in src/core/genesis.go are). It wraps `big.Int.SetString(s, 0)`:
an optional sign followed by a hex (`0x`), binary (`0b`), octal (`0o` or a
leading `0`) or decimal digit string; `none` when the string cannot be
parsed. Spec section 6 describes the fields as hex/decimal-encoded strings. -/
def parseBigBase0 (s : String) : Option Int :=
  let signed : Bool × List Char :=
    match s.data with
    | '-' :: rest => (true, rest)
    | '+' :: rest => (false, rest)
    | cs => (false, cs)
  let magnitude : Option Nat :=
    match signed.2 with
    | '0' :: 'x' :: rest => parseDigits 16 rest
    | '0' :: 'X' :: rest => parseDigits 16 rest
    | '0' :: 'b' :: rest => parseDigits 2 rest
    | '0' :: 'B' :: rest => parseDigits 2 rest
    | '0' :: 'o' :: rest => parseDigits 8 rest
    | '0' :: 'O' :: rest => parseDigits 8 rest
    | '0' :: rest => if rest.isEmpty then some 0 else parseDigits 8 rest
    | cs => parseDigits 10 cs
  magnitude.map fun m => if signed.1 then -(m : Int) else (m : Int)

/-- Modelled from the spec: `common.String2Big` returns a single `*big.Int`
value and cannot signal failure (visible from its single-value call sites at
src/core/genesis.go lines 66, 74, 76, 77, 80); an unparseable string yields
the zero-initialised integer. -/
def string2Big (s : String) : Int :=
  (parseBigBase0 s).getD 0

/-- Successive hex-digit pairs of a character list, stopping at the first
character that is not a hex digit (the Go `hex.DecodeString` best-effort
prefix whose error `common.Hex2Bytes` discards). -/
def hexPairs : List Char → List Nat
  | c1 :: c2 :: rest =>
    match hexDigitVal c1, hexDigitVal c2 with
    | some d1, some d2 => (d1 * 16 + d2) :: hexPairs rest
    | _, _ => []
  | _ => []

/-- Modelled from the spec: `common.Hex2Bytes` is not under src/; it decodes
a raw (unprefixed) hex string into bytes, ignoring the decode error. -/
def hex2Bytes (s : String) : List Nat :=
  hexPairs s.data

/-- Modelled from the spec: `common.FromHex` is not under src/; it strips an
optional `0x` prefix, left-pads an odd-length string with one `0`, then
decodes hex pairs. -/
def fromHex (s : String) : List Nat :=
  let cs := match s.data with
    | '0' :: 'x' :: rest => rest
    | cs => cs
  let cs := if cs.length % 2 = 1 then '0' :: cs else cs
  hexPairs cs

/-- Big-endian value of a byte sequence. -/
def bytesToNat (bs : List Nat) : Nat :=
  bs.foldl (fun a b => a * 256 + b) 0

/-- Modelled from the spec: `common.HexToAddress` is not under src/; it
hex-decodes the string and keeps the last 20 bytes (the value modulo
2^160). -/
def hexToAddress (s : String) : Nat :=
  bytesToNat (fromHex s) % 2 ^ 160

/-- Modelled from the spec: `common.HexToHash` is not under src/; it
hex-decodes the string and keeps the last 32 bytes (the value modulo
2^256). -/
def hexToHash (s : String) : Nat :=
  bytesToNat (fromHex s) % 2 ^ 256

/-- A world-state account during genesis materialization: balance, code and
sparse storage (absent storage slots read as zero). -/
structure Account where
  balance : Int
  code : List Nat
  storage : Nat → Nat

/-- The world-state collaborator's account map, keyed by address.  Accounts
spring into existence with zero balance, empty code and empty storage on
first reference, as `state.New(common.Hash{}, db)` provides. -/
def WorldState : Type := Nat → Account

/-- The fresh world state. -/
def emptyWorldState : WorldState :=
  fun _ => ⟨0, [], fun _ => 0⟩

/-- Pointwise account update at one address. -/
def updAt (st : WorldState) (address : Nat) (f : Account → Account) : WorldState :=
  fun a => if a = address then f (st a) else st a

/-- `statedb.AddBalance`: adds to the account's balance. -/
def addBalance (st : WorldState) (address : Nat) (v : Int) : WorldState :=
  updAt st address fun ac => { ac with balance := ac.balance + v }

/-- `statedb.SetCode`: replaces the account's code. -/
def setCode (st : WorldState) (address : Nat) (c : List Nat) : WorldState :=
  updAt st address fun ac => { ac with code := c }

/-- `statedb.SetState`: writes one storage slot of the account. -/
def setState (st : WorldState) (address : Nat) (k v : Nat) : WorldState :=
  updAt st address fun ac =>
    { ac with storage := fun k' => if k' = k then v else ac.storage k' }

/-- One parsed allocation-table entry, as decoded from the anonymous
`Alloc` struct of `WriteGenesisBlock` (src/core/genesis.go lines 52-56):
code, storage and balance are the raw decoded strings. -/
structure RawAccount where
  code : String
  storage : List (String × String)
  balance : String
deriving DecidableEq, Repr

/-- The parsed genesis description: the anonymous struct of
`WriteGenesisBlock` (src/core/genesis.go lines 43-57).  All fields are raw
decoded strings; the allocation table is kept as an association list in
document order (Go iterates the decoded map in unspecified order, which the
permutation theorems quantify over). -/
structure RawGenesis where
  nonce : String
  timestamp : String
  parentHash : String
  extraData : String
  gasLimit : String
  difficulty : String
  mixhash : String
  coinbase : String
  alloc : List (String × RawAccount)
deriving DecidableEq, Repr

/-- Materialization of one allocation entry (the body of the loop at
src/core/genesis.go lines 64-71): `AddBalance` with the parsed balance,
`SetCode` with the hex-decoded code, then `SetState` for every storage
pair. -/
def applyAlloc (st : WorldState) (entry : String × RawAccount) : WorldState :=
  let address := hexToAddress entry.1
  let st1 := addBalance st address (string2Big entry.2.balance)
  let st2 := setCode st1 address (hex2Bytes entry.2.code)
  entry.2.storage.foldl
    (fun st kv => setState st address (hexToHash kv.1) (hexToHash kv.2)) st2

/-- The world state obtained by materializing the allocation table in the
given iteration order. -/
def materialize (alloc : List (String × RawAccount)) : WorldState :=
  alloc.foldl applyAlloc emptyWorldState

/-- The single-account view of one entry's materialization, used to show
entries at distinct addresses commute. -/
def entryUpdate (entry : String × RawAccount) : Account → Account :=
  fun ac =>
    entry.2.storage.foldl
      (fun ac kv =>
        { ac with storage := fun k' => if k' = hexToHash kv.1 then hexToHash kv.2
            else ac.storage k' })
      { ac with
          balance := ac.balance + string2Big entry.2.balance
          code := hex2Bytes entry.2.code }

/-- A decoded JSON document, the input shape handed to `json.Unmarshal` at
src/core/genesis.go line 59.  Text-level (byte) syntax errors of the Go
parser are upstream of this model: a malformed byte stream fails before any
tree exists, again with a structural error and no store write. -/
inductive Json where
  | null
  | bool (b : Bool)
  | num (n : Int)
  | str (s : String)
  | arr (elems : List Json)
  | obj (fields : List (String × Json))

/-- ASCII lowercasing of one character (the struct field names matched
here are all ASCII). -/
def lowerChar (c : Char) : Char :=
  if 'A' ≤ c ∧ c ≤ 'Z' then Char.ofNat (c.toNat + 32) else c

/-- Case-insensitive equality of two character lists. -/
def lowerEqChars : List Char → List Char → Bool
  | [], [] => true
  | c :: cs, d :: ds => (lowerChar c == lowerChar d) && lowerEqChars cs ds
  | _, _ => false

/-- Go `encoding/json` field matching: case-insensitive name comparison. -/
def jsonField (fields : List (String × Json)) (name : String) : Option Json :=
  (fields.find? fun p => lowerEqChars p.1.data name.data).map Prod.snd

/-- Unmarshal a JSON value into a Go `string` field: strings decode to
themselves, `null` leaves the zero value, anything else is a type error. -/
def decodeString : Json → Except String String
  | .str s => .ok s
  | .null => .ok ""
  | _ => .error "json: cannot unmarshal value into Go value of type string"

/-- Unmarshal a named `string` struct field; an absent field keeps its zero
value. -/
def decodeStringField (fields : List (String × Json)) (name : String) :
    Except String String :=
  match jsonField fields name with
  | none => .ok ""
  | some j => decodeString j

/-- Element-wise decoding of a list, stopping at the first failure (the
error `json.Unmarshal` reports for the offending entry). -/
def mapMEx {α β : Type} (f : α → Except String β) : List α → Except String (List β)
  | [] => .ok []
  | x :: xs =>
    match f x with
    | .error e => .error e
    | .ok y =>
      match mapMEx f xs with
      | .error e => .error e
      | .ok ys => .ok (y :: ys)

/-- Unmarshal the `Storage map[string]string` field. -/
def decodeStorage : Json → Except String (List (String × String))
  | .null => .ok []
  | .obj kvs => mapMEx (fun p => (decodeString p.2).map fun v => (p.1, v)) kvs
  | _ => .error "json: cannot unmarshal value into Go value of type map[string]string"

/-- Unmarshal one allocation-table entry (the anonymous struct with `Code`,
`Storage`, `Balance`). -/
def decodeAccount : Json → Except String RawAccount
  | .null => .ok ⟨"", [], ""⟩
  | .obj fields => do
    let code ← decodeStringField fields "code"
    let storage ← match jsonField fields "storage" with
      | none => Except.ok []
      | some js => decodeStorage js
    let balance ← decodeStringField fields "balance"
    .ok ⟨code, storage, balance⟩
  | _ => .error "json: cannot unmarshal value into Go struct"

/-- Unmarshal the `Alloc map[string]...` field. -/
def decodeAlloc : Json → Except String (List (String × RawAccount))
  | .null => .ok []
  | .obj kvs => mapMEx (fun p => (decodeAccount p.2).map fun a => (p.1, a)) kvs
  | _ => .error "json: cannot unmarshal value into Go value of type map"

/-- The genesis loader: `json.Unmarshal` of the document into the anonymous
genesis struct of src/core/genesis.go lines 43-59.  Unknown fields are
ignored, absent optional fields keep their zero values, and the only error
source is a structural type mismatch. -/
def decodeGenesis : Json → Except String RawGenesis
  | .null => .ok ⟨"", "", "", "", "", "", "", "", []⟩
  | .obj fields => do
    let nonce ← decodeStringField fields "nonce"
    let timestamp ← decodeStringField fields "timestamp"
    let parentHash ← decodeStringField fields "parentHash"
    let extraData ← decodeStringField fields "extraData"
    let gasLimit ← decodeStringField fields "gasLimit"
    let difficulty ← decodeStringField fields "difficulty"
    let mixhash ← decodeStringField fields "mixhash"
    let coinbase ← decodeStringField fields "coinbase"
    let alloc ← match jsonField fields "alloc" with
      | none => Except.ok []
      | some js => decodeAlloc js
    .ok ⟨nonce, timestamp, parentHash, extraData, gasLimit, difficulty, mixhash,
      coinbase, alloc⟩
  | _ => .error "json: cannot unmarshal value into Go struct"

/-- Structural well-formedness of the genesis document, stated
declaratively (spec sections 4.1 and 6): the document is an object (or
null), every known scalar field that is present is a string, and the
allocation table, when present, is an object of objects whose `code`,
`balance` and `storage` members are string-shaped. -/
def stringShaped : Json → Bool
  | .str _ => true
  | .null => true
  | _ => false

/-- Shape of a `storage` member: an object with string values (or null). -/
def storageShaped : Json → Bool
  | .null => true
  | .obj kvs => kvs.all fun p => stringShaped p.2
  | _ => false

/-- Shape of one allocation entry. -/
def accountShaped : Json → Bool
  | .null => true
  | .obj fields =>
    (match jsonField fields "code" with | none => true | some j => stringShaped j) &&
    (match jsonField fields "storage" with | none => true | some j => storageShaped j) &&
    (match jsonField fields "balance" with | none => true | some j => stringShaped j)
  | _ => false

/-- Shape of the allocation table. -/
def allocShaped : Json → Bool
  | .null => true
  | .obj kvs => kvs.all fun p => accountShaped p.2
  | _ => false

/-- Shape of the whole genesis document. -/
def genesisShaped : Json → Bool
  | .null => true
  | .obj fields =>
    (["nonce", "timestamp", "parentHash", "extraData", "gasLimit", "difficulty",
        "mixhash", "coinbase"].all fun n =>
      match jsonField fields n with | none => true | some j => stringShaped j) &&
    (match jsonField fields "alloc" with | none => true | some j => allocShaped j)
  | _ => false

/-- The genesis header assembled at src/core/genesis.go lines 75-85: spec
fields converted exactly as the source does (`String2Big`, `FromHex`,
`HexToHash`, `HexToAddress`), the nonce truncated to a uint64 by
`EncodeNonce(...Uint64())`, and the state root obtained from the world-state
collaborator's commitment `commit` (an external collaborator, spec section
6). -/
structure HeaderModel where
  nonce : Nat
  time : Int
  parentHash : Nat
  extra : List Nat
  gasLimit : Int
  difficulty : Int
  mixDigest : Nat
  coinbase : Nat
  root : Nat
deriving DecidableEq, Repr

/-- Build the genesis header from a parsed spec. -/
def genesisHeader (commit : WorldState → Nat) (g : RawGenesis) : HeaderModel :=
  { nonce := (string2Big g.nonce).toNat % 2 ^ 64
    time := string2Big g.timestamp
    parentHash := hexToHash g.parentHash
    extra := fromHex g.extraData
    gasLimit := string2Big g.gasLimit
    difficulty := string2Big g.difficulty
    mixDigest := hexToHash g.mixhash
    coinbase := hexToAddress g.coinbase
    root := commit (materialize g.alloc) }

/-- The block identity produced by `types.NewBlock(header, nil, nil, nil)`:
a content hash of the header, computed by the external header-hash
collaborator `hashFn` (block-header hashing is out of scope, spec section
1). -/
def genesisBlockHash (commit : WorldState → Nat) (hashFn : HeaderModel → Nat)
    (g : RawGenesis) : Nat :=
  hashFn (genesisHeader commit g)

/-- The whole of `WriteGenesisBlock` (src/core/genesis.go lines 37-110):
parse the document, materialize the allocation table, build the block, and
install it.  A parse failure is returned before any chain-index write.
Modelled from the spec where the collaborators are outside src/:
`types.NewBlock` normalizes the absent header number, and per spec sections
1 and 3 the genesis block occupies number 0. -/
def WriteGenesisBlock (fail : WriteOp → Option String) (commit : WorldState → Nat)
    (hashFn : HeaderModel → Nat) (s : ChainIndex) (j : Json) :
    Except String Block × ChainIndex :=
  match decodeGenesis j with
  | .error e => (.error e, s)
  | .ok g =>
    let difficulty := string2Big g.difficulty
    let b : Block := ⟨genesisBlockHash commit hashFn g, 0⟩
    let out := installGenesisBlock fail s b difficulty
    (out.result, out.state)

/-- A genesis document whose single allocation entry has an unparseable
balance string. -/
def cBadBalanceJson : Json :=
  Json.obj [("alloc", Json.obj
    [("0000000000000000000000000000000000000001",
      Json.obj [("balance", Json.str "zz")])])]

/-- Modelled from the spec: `params.GenesisDifficulty` is not under src/;
spec section 8, Scenario A gives its value 0x400000000. -/
def genesisDifficulty : Nat := 0x400000000

/-- Modelled from the spec: `params.GenesisGasLimit` is not under src/;
spec section 8, Scenario A gives its value 0x1388000. -/
def genesisGasLimit : Nat := 0x1388000

/-- Lowercase hex digit character for a value below 16 (Go `%x`). -/
def hexDigitChar (d : Nat) : Char :=
  if d < 10 then Char.ofNat (48 + d) else Char.ofNat (87 + d)

/-- `%x` of one byte: exactly two lowercase hex digits. -/
def byteHex (b : Nat) : List Char :=
  [hexDigitChar (b / 16 % 16), hexDigitChar (b % 16)]

/-- `fmt.Sprintf "%x"` of a byte slice: the concatenation of each byte's
two hex digits. -/
def bytesHex (bs : List Nat) : String :=
  ⟨bs.foldr (fun b acc => byteHex b ++ acc) []⟩

/-- Fuel-bounded big-endian base-256 digits; the fixed fuel 64 covers every
value below 256^64, far beyond the constants encoded here. -/
def natBytesAux : Nat → Nat → List Nat
  | 0, _ => []
  | fuel + 1, n => if n = 0 then [] else natBytesAux fuel (n / 256) ++ [n % 256]

/-- Modelled from the spec: `big.Int.Bytes` (Go standard library), the
minimal big-endian byte representation, empty for zero. -/
def natBytes (n : Nat) : List Nat :=
  natBytesAux 64 n

/-- Modelled from the spec: `types.EncodeNonce` is not under src/; it is the
8-byte big-endian encoding of a uint64 block nonce. -/
def encodeNonce (n : Nat) : List Nat :=
  [n / 2 ^ 56 % 256, n / 2 ^ 48 % 256, n / 2 ^ 40 % 256, n / 2 ^ 32 % 256,
    n / 2 ^ 24 % 256, n / 2 ^ 16 % 256, n / 2 ^ 8 % 256, n % 256]

/-- The fixed allocation table of `WriteTestNetGenesisBlock`
(src/core/genesis.go lines 158-171), in source document order. -/
def testNetAlloc : List (String × Json) :=
  [("0000000000000000000000000000000000000001", Json.obj [("balance", Json.str "1")]),
   ("0000000000000000000000000000000000000002", Json.obj [("balance", Json.str "1")]),
   ("0000000000000000000000000000000000000003", Json.obj [("balance", Json.str "1")]),
   ("0000000000000000000000000000000000000004", Json.obj [("balance", Json.str "1")]),
   ("dbdbdb2cbd23b783741e8d7fcf51e459b497e4a6", Json.obj [("balance",
     Json.str "1606938044258990275541962092341162602522202993782792835301376")]),
   ("e4157b34ea9615cfbde6b4fda419828124b70c78", Json.obj [("balance",
     Json.str "1606938044258990275541962092341162602522202993782792835301376")]),
   ("b9c015918bdaba24b4ff057a92a3873d6eb201be", Json.obj [("balance",
     Json.str "1606938044258990275541962092341162602522202993782792835301376")]),
   ("6c386a4b26f73c802f34673f7248bb118f97424a", Json.obj [("balance",
     Json.str "1606938044258990275541962092341162602522202993782792835301376")]),
   ("cd2a3d9f938e13cd947ec05abc7fe734df8dd826", Json.obj [("balance",
     Json.str "1606938044258990275541962092341162602522202993782792835301376")]),
   ("2ef47100e0787b915105fd5e3f4ff6752079d5cb", Json.obj [("balance",
     Json.str "1606938044258990275541962092341162602522202993782792835301376")]),
   ("e6716f9544a56c530d868e4bfbacb172315bdead", Json.obj [("balance",
     Json.str "1606938044258990275541962092341162602522202993782792835301376")]),
   ("1a26338f0d905e295fccb71fa9ea849ffa12aaf4", Json.obj [("balance",
     Json.str "1606938044258990275541962092341162602522202993782792835301376")])]

/-- The genesis document assembled by `WriteTestNetGenesisBlock`
(src/core/genesis.go lines 153-174): nonce, gas limit and difficulty as
`0x`-prefixed `%x` strings, and the fixed twelve-entry allocation table. -/
def testNetGenesisJson (nonce : Nat) : Json :=
  Json.obj
    [("nonce", Json.str ("0x" ++ bytesHex (encodeNonce nonce))),
     ("gasLimit", Json.str ("0x" ++ bytesHex (natBytes genesisGasLimit))),
     ("difficulty", Json.str ("0x" ++ bytesHex (natBytes genesisDifficulty))),
     ("alloc", Json.obj testNetAlloc)]

/-- The expected parsed form of one large-balance testnet entry. -/
def bigBalanceAccount : RawAccount :=
  ⟨"", [], "1606938044258990275541962092341162602522202993782792835301376"⟩

/-- The expected parse of the testnet allocation table. -/
def testNetAllocSpec : List (String × RawAccount) :=
  [("0000000000000000000000000000000000000001", ⟨"", [], "1"⟩),
   ("0000000000000000000000000000000000000002", ⟨"", [], "1"⟩),
   ("0000000000000000000000000000000000000003", ⟨"", [], "1"⟩),
   ("0000000000000000000000000000000000000004", ⟨"", [], "1"⟩),
   ("dbdbdb2cbd23b783741e8d7fcf51e459b497e4a6", bigBalanceAccount),
   ("e4157b34ea9615cfbde6b4fda419828124b70c78", bigBalanceAccount),
   ("b9c015918bdaba24b4ff057a92a3873d6eb201be", bigBalanceAccount),
   ("6c386a4b26f73c802f34673f7248bb118f97424a", bigBalanceAccount),
   ("cd2a3d9f938e13cd947ec05abc7fe734df8dd826", bigBalanceAccount),
   ("2ef47100e0787b915105fd5e3f4ff6752079d5cb", bigBalanceAccount),
   ("e6716f9544a56c530d868e4bfbacb172315bdead", bigBalanceAccount),
   ("1a26338f0d905e295fccb71fa9ea849ffa12aaf4", bigBalanceAccount)]

/-- The expected parse of the whole testnet genesis document. -/
def testNetSpec (nonce : Nat) : RawGenesis :=
  ⟨"0x" ++ bytesHex (encodeNonce nonce), "", "", "",
    "0x" ++ bytesHex (natBytes genesisGasLimit),
    "0x" ++ bytesHex (natBytes genesisDifficulty), "", "", testNetAllocSpec⟩

/-- A small two-account genesis description used to witness the
determinism theorem. -/
def c7SpecA : RawGenesis :=
  ⟨"0x2a", "0x0", "", "", "0x1388000", "0x400", "", "",
    [("0x01", ⟨"", [], "5"⟩), ("0x02", ⟨"", [("0x01", "0x02")], "7"⟩)]⟩

/-- The handler functions of the eth api facade, one constructor per
distinct method of `ethApi` (src/unnamed/part_000 lines 186-727). -/
inductive Handler where
  | Accounts
  | BlockNumber
  | GetBalance
  | ProtocolVersion
  | Coinbase
  | IsMining
  | IsSyncing
  | GasPrice
  | GetStorage
  | GetStorageAt
  | GetTransactionCount
  | GetBlockTransactionCountByHash
  | GetBlockTransactionCountByNumber
  | GetUncleCountByBlockHash
  | GetUncleCountByBlockNumber
  | GetData
  | GetNatSpec
  | Sign
  | SendRawTransaction
  | SendTransaction
  | EstimateGas
  | Call
  | Flush
  | GetBlockByHash
  | GetBlockByNumber
  | GetTransactionByHash
  | GetTransactionByBlockNumberAndIndex
  | GetTransactionByBlockHashAndIndex
  | GetUncleByBlockHashAndIndex
  | GetUncleByBlockNumberAndIndex
  | GetCompilers
  | CompileSolidity
  | NewFilter
  | NewBlockFilter
  | NewPendingTransactionFilter
  | UninstallFilter
  | GetFilterChanges
  | GetFilterLogs
  | GetLogs
  | Hashrate
  | GetWork
  | SubmitWork
  | SubmitHashrate
  | Resend
  | PendingTransactions
  | GetTransactionReceipt
deriving DecidableEq, Repr

/-- The dispatch table `ethMapping` (src/unnamed/part_000 lines 52-150), in
source order: the 49 `eth_`-prefixed keys followed by the 48
`exp_`-prefixed keys, each naming its handler function.  The Go map literal
has pairwise-distinct keys, so an association list models the map lookup
faithfully. -/
def ethMapping : List (String × Handler) :=
  [("eth_accounts", Handler.Accounts),
   ("eth_blockNumber", Handler.BlockNumber),
   ("eth_getBalance", Handler.GetBalance),
   ("eth_protocolVersion", Handler.ProtocolVersion),
   ("eth_coinbase", Handler.Coinbase),
   ("eth_mining", Handler.IsMining),
   ("eth_syncing", Handler.IsSyncing),
   ("eth_gasPrice", Handler.GasPrice),
   ("eth_getStorage", Handler.GetStorage),
   ("eth_storageAt", Handler.GetStorage),
   ("eth_getStorageAt", Handler.GetStorageAt),
   ("eth_getTransactionCount", Handler.GetTransactionCount),
   ("eth_getBlockTransactionCountByHash", Handler.GetBlockTransactionCountByHash),
   ("eth_getBlockTransactionCountByNumber", Handler.GetBlockTransactionCountByNumber),
   ("eth_getUncleCountByBlockHash", Handler.GetUncleCountByBlockHash),
   ("eth_getUncleCountByBlockNumber", Handler.GetUncleCountByBlockNumber),
   ("eth_getData", Handler.GetData),
   ("eth_getCode", Handler.GetData),
   ("eth_getNatSpec", Handler.GetNatSpec),
   ("eth_sign", Handler.Sign),
   ("eth_sendRawTransaction", Handler.SendRawTransaction),
   ("eth_sendTransaction", Handler.SendTransaction),
   ("eth_transact", Handler.SendTransaction),
   ("eth_estimateGas", Handler.EstimateGas),
   ("eth_call", Handler.Call),
   ("eth_flush", Handler.Flush),
   ("eth_getBlockByHash", Handler.GetBlockByHash),
   ("eth_getBlockByNumber", Handler.GetBlockByNumber),
   ("eth_getTransactionByHash", Handler.GetTransactionByHash),
   ("eth_getTransactionByBlockNumberAndIndex", Handler.GetTransactionByBlockNumberAndIndex),
   ("eth_getTransactionByBlockHashAndIndex", Handler.GetTransactionByBlockHashAndIndex),
   ("eth_getUncleByBlockHashAndIndex", Handler.GetUncleByBlockHashAndIndex),
   ("eth_getUncleByBlockNumberAndIndex", Handler.GetUncleByBlockNumberAndIndex),
   ("eth_getCompilers", Handler.GetCompilers),
   ("eth_compileSolidity", Handler.CompileSolidity),
   ("eth_newFilter", Handler.NewFilter),
   ("eth_newBlockFilter", Handler.NewBlockFilter),
   ("eth_newPendingTransactionFilter", Handler.NewPendingTransactionFilter),
   ("eth_uninstallFilter", Handler.UninstallFilter),
   ("eth_getFilterChanges", Handler.GetFilterChanges),
   ("eth_getFilterLogs", Handler.GetFilterLogs),
   ("eth_getLogs", Handler.GetLogs),
   ("eth_hashrate", Handler.Hashrate),
   ("eth_getWork", Handler.GetWork),
   ("eth_submitWork", Handler.SubmitWork),
   ("eth_submitHashrate", Handler.SubmitHashrate),
   ("eth_resend", Handler.Resend),
   ("eth_pendingTransactions", Handler.PendingTransactions),
   ("eth_getTransactionReceipt", Handler.GetTransactionReceipt),
   ("exp_accounts", Handler.Accounts),
   ("exp_blockNumber", Handler.BlockNumber),
   ("exp_getBalance", Handler.GetBalance),
   ("exp_protocolVersion", Handler.ProtocolVersion),
   ("exp_coinbase", Handler.Coinbase),
   ("exp_mining", Handler.IsMining),
   ("exp_syncing", Handler.IsSyncing),
   ("exp_gasPrice", Handler.GasPrice),
   ("exp_getStorage", Handler.GetStorage),
   ("exp_storageAt", Handler.GetStorage),
   ("exp_getStorageAt", Handler.GetStorageAt),
   ("exp_getTransactionCount", Handler.GetTransactionCount),
   ("exp_getBlockTransactionCountByHash", Handler.GetBlockTransactionCountByHash),
   ("exp_getBlockTransactionCountByNumber", Handler.GetBlockTransactionCountByNumber),
   ("exp_getUncleCountByBlockHash", Handler.GetUncleCountByBlockHash),
   ("exp_getUncleCountByBlockNumber", Handler.GetUncleCountByBlockNumber),
   ("exp_getData", Handler.GetData),
   ("exp_getCode", Handler.GetData),
   ("exp_sign", Handler.Sign),
   ("exp_sendRawTransaction", Handler.SendRawTransaction),
   ("exp_sendTransaction", Handler.SendTransaction),
   ("exp_transact", Handler.SendTransaction),
   ("exp_estimateGas", Handler.EstimateGas),
   ("exp_call", Handler.Call),
   ("exp_flush", Handler.Flush),
   ("exp_getBlockByHash", Handler.GetBlockByHash),
   ("exp_getBlockByNumber", Handler.GetBlockByNumber),
   ("exp_getTransactionByHash", Handler.GetTransactionByHash),
   ("exp_getTransactionByBlockNumberAndIndex", Handler.GetTransactionByBlockNumberAndIndex),
   ("exp_getTransactionByBlockHashAndIndex", Handler.GetTransactionByBlockHashAndIndex),
   ("exp_getUncleByBlockHashAndIndex", Handler.GetUncleByBlockHashAndIndex),
   ("exp_getUncleByBlockNumberAndIndex", Handler.GetUncleByBlockNumberAndIndex),
   ("exp_getCompilers", Handler.GetCompilers),
   ("exp_compileSolidity", Handler.CompileSolidity),
   ("exp_newFilter", Handler.NewFilter),
   ("exp_newBlockFilter", Handler.NewBlockFilter),
   ("exp_newPendingTransactionFilter", Handler.NewPendingTransactionFilter),
   ("exp_uninstallFilter", Handler.UninstallFilter),
   ("exp_getFilterChanges", Handler.GetFilterChanges),
   ("exp_getFilterLogs", Handler.GetFilterLogs),
   ("exp_getLogs", Handler.GetLogs),
   ("exp_hashrate", Handler.Hashrate),
   ("exp_getWork", Handler.GetWork),
   ("exp_submitWork", Handler.SubmitWork),
   ("exp_submitHashrate", Handler.SubmitHashrate),
   ("exp_resend", Handler.Resend),
   ("exp_pendingTransactions", Handler.PendingTransactions),
   ("exp_getTransactionReceipt", Handler.GetTransactionReceipt)]

/-- Lookup of a method key in the dispatch table (the Go map access
`self.methods[req.Method]`). -/
def mlookup : List (String × Handler) → String → Option Handler
  | [], _ => none
  | (k, h) :: rest, m => if k = m then some h else mlookup rest m

/-- A `shared.Request`: id, method name and the opaque raw parameter
payload. -/
structure Request where
  id : Nat
  method : String
  params : String
deriving DecidableEq, Repr

/-- Modelled from the spec: the `rpc/shared` error constructors are not
under src/.  Each records the data its call sites in src/unnamed/part_000
pass, in particular `NewNotImplementedError(req.Method)` records the method
name (lines 175 and 416). -/
inductive ApiErr where
  | notImplemented (method : String)
  | notAvailable (method : String) (reason : String)
  | decodeParam (err : String)
  | other (err : String)
deriving DecidableEq, Repr

/-- `Flush` (src/unnamed/part_000 lines 415-417): always returns
`nil, NewNotImplementedError(req.Method)`. -/
def flushImpl (req : Request) : Except ApiErr String :=
  .error (.notImplemented req.method)

/-- `Execute` (src/unnamed/part_000 lines 170-176): look the request's
method up in the table and invoke the mapped handler on the request,
otherwise return `NewNotImplementedError(req.Method)`.  The bodies of the
individual handlers are the abstract interpretation `impl`. -/
def Execute (impl : Handler → Request → Except ApiErr String) (req : Request) :
    Except ApiErr String :=
  match mlookup ethMapping req.method with
  | some h => impl h req
  | none => .error (.notImplemented req.method)

/-- An interpretation that is concrete on `Flush` (whose body lies entirely
in src/unnamed/part_000) and abstract elsewhere. -/
def implWithFlush (impl : Handler → Request → Except ApiErr String) :
    Handler → Request → Except ApiErr String :=
  fun h req => match h with
    | .Flush => flushImpl req
    | h' => impl h' req

/-- Decoded `HashIndexArgs` (block hash and transaction/uncle index). -/
structure HashIndexArgs where
  hash : String
  index : Int
deriving DecidableEq, Repr

/-- Decoded `BlockNumIndexArgs` (block number and transaction/uncle
index). -/
structure BlockNumIndexArgs where
  blockNumber : Int
  index : Int
deriving DecidableEq, Repr

/-- A chain block as the `xeth` view resolves it: its hash and opaque
transaction and uncle items. -/
structure RawBlock where
  hash : Nat
  transactions : List Nat
  uncles : List Nat
deriving DecidableEq, Repr

/-- The block response: transaction and uncle items plus the full-tx
flag. -/
structure BlockRes where
  transactions : List Nat
  uncles : List Nat
  fullTx : Bool
deriving DecidableEq, Repr

/-- Modelled from the spec: `NewBlockRes` is not under src/; the spec
(section 1) treats the read facade's block view as an external
collaborator.  Modelled as a response carrying one item per transaction and
per uncle of the resolved block, which is what its guard-and-index call
sites in src/unnamed/part_000 lines 473-543 rely on; the `fullTx` flag
affects the rendering of the items, not their counts. -/
def NewBlockRes (b : RawBlock) (td : Int) (fullTx : Bool) : BlockRes :=
  ⟨b.transactions, b.uncles, fullTx⟩

/-- Outcome of one index-guarded read handler: the `(interface{}, error)`
pair (where `ok none` is Go's `nil, nil`), plus a `crash` marker standing
for an out-of-bounds slice access, which would panic in Go; the theorems
show it is unreachable. -/
inductive ReadOut where
  | ok (v : Option Nat)
  | err (e : ApiErr)
  | crash
deriving DecidableEq, Repr

/-- `GetTransactionByBlockHashAndIndex` (src/unnamed/part_000 lines
473-489): a decode failure surfaces a DecodeParamError; an unresolved block gives
`nil, nil`; an index that is negative or not below the transaction count
gives `nil, nil`; otherwise the indexed transaction is returned. -/
def GetTransactionByBlockHashAndIndex (blockByHash : String → Option RawBlock)
    (td : Nat → Int) (decoded : Except String HashIndexArgs) : ReadOut :=
  match decoded with
  | .error e => .err (.decodeParam e)
  | .ok args =>
    match blockByHash args.hash with
    | none => .ok none
    | some raw =>
      let block := NewBlockRes raw (td raw.hash) true
      if args.index ≥ (block.transactions.length : Int) ∨ args.index < 0 then .ok none
      else
        match block.transactions.get? args.index.toNat with
        | some t => .ok (some t)
        | none => .crash

/-- `GetTransactionByBlockNumberAndIndex` (src/unnamed/part_000 lines
491-507). -/
def GetTransactionByBlockNumberAndIndex (blockByNumber : Int → Option RawBlock)
    (td : Nat → Int) (decoded : Except String BlockNumIndexArgs) : ReadOut :=
  match decoded with
  | .error e => .err (.decodeParam e)
  | .ok args =>
    match blockByNumber args.blockNumber with
    | none => .ok none
    | some raw =>
      let block := NewBlockRes raw (td raw.hash) true
      if args.index ≥ (block.transactions.length : Int) ∨ args.index < 0 then .ok none
      else
        match block.transactions.get? args.index.toNat with
        | some t => .ok (some t)
        | none => .crash

/-- `GetUncleByBlockHashAndIndex` (src/unnamed/part_000 lines 509-525);
note the source passes `false` for the full-tx flag here. -/
def GetUncleByBlockHashAndIndex (blockByHash : String → Option RawBlock)
    (td : Nat → Int) (decoded : Except String HashIndexArgs) : ReadOut :=
  match decoded with
  | .error e => .err (.decodeParam e)
  | .ok args =>
    match blockByHash args.hash with
    | none => .ok none
    | some raw =>
      let block := NewBlockRes raw (td raw.hash) false
      if args.index ≥ (block.uncles.length : Int) ∨ args.index < 0 then .ok none
      else
        match block.uncles.get? args.index.toNat with
        | some u => .ok (some u)
        | none => .crash

/-- `GetUncleByBlockNumberAndIndex` (src/unnamed/part_000 lines 527-543);
the source passes `true` for the full-tx flag here. -/
def GetUncleByBlockNumberAndIndex (blockByNumber : Int → Option RawBlock)
    (td : Nat → Int) (decoded : Except String BlockNumIndexArgs) : ReadOut :=
  match decoded with
  | .error e => .err (.decodeParam e)
  | .ok args =>
    match blockByNumber args.blockNumber with
    | none => .ok none
    | some raw =>
      let block := NewBlockRes raw (td raw.hash) true
      if args.index ≥ (block.uncles.length : Int) ∨ args.index < 0 then .ok none
      else
        match block.uncles.get? args.index.toNat with
        | some u => .ok (some u)
        | none => .crash

/-- A concrete block used in the guard witnesses. -/
def cRawBlock : RawBlock := ⟨9, [10, 11], [20]⟩

/-- A concrete by-hash view resolving only the hash string "ab". -/
def cBlockByHash : String → Option RawBlock :=
  fun s => if s = "ab" then some cRawBlock else none

/-- A concrete by-number view resolving only number 0. -/
def cBlockByNumber : Int → Option RawBlock :=
  fun n => if n = 0 then some cRawBlock else none

/-- A concrete total-difficulty view. -/
def cTd : Nat → Int := fun _ => 3

/-- Helper: writing a canonical entry that is already present leaves the
state unchanged. -/
theorem applyWrite_canonical_self (s : ChainIndex) (n h : Nat)
    (hc : s.canonical n = some h) : applyWrite s (WriteOp.putCanonical n h) = s := by
  cases s with
  | mk blocks td canonical head =>
    simp only [applyWrite, ChainIndex.mk.injEq, and_true, true_and]
    funext n'
    by_cases hn : n' = n
    · subst hn; simp_all
    · simp [hn]

/-- Helper: the value of the installer when the block is already stored
under its hash and the canonical write succeeds. -/
theorem install_found (fail : WriteOp → Option String) (s : ChainIndex)
    (b stored : Block) (d : Int)
    (hfound : s.blocks b.hash = some stored)
    (hok : fail (WriteOp.putCanonical stored.number stored.hash) = none) :
    installGenesisBlock fail s b d
      = ⟨.ok stored, applyWrite s (WriteOp.putCanonical stored.number stored.hash),
          [WriteOp.putCanonical stored.number stored.hash]⟩ := by
  simp [installGenesisBlock, hfound, hok]

/-- Helper: the value of the installer on a fresh store with a normally
operating database. -/
theorem install_fresh (fail : WriteOp → Option String) (s : ChainIndex)
    (b : Block) (d : Int)
    (hfresh : s.blocks b.hash = none)
    (hok : ∀ op, fail op = none) :
    installGenesisBlock fail s b d
      = ⟨.ok b,
          applyWrite (applyWrite (applyWrite (applyWrite s (WriteOp.putTd b.hash d))
            (WriteOp.putBlock b.hash b)) (WriteOp.putCanonical b.number b.hash))
            (WriteOp.putHead b.hash),
          installOps b d⟩ := by
  simp [installGenesisBlock, hfresh, hok, installOps]

/-- C2: installing the same block and difficulty a second time leaves the
chain index exactly as after the first call, and returns the same block. -/
theorem install_idempotent (s : ChainIndex) (b : Block) (d : Int) :
    (installGenesisBlock noFail (installGenesisBlock noFail s b d).state b d).state
      = (installGenesisBlock noFail s b d).state ∧
    (installGenesisBlock noFail (installGenesisBlock noFail s b d).state b d).result
      = (installGenesisBlock noFail s b d).result := by
  cases hfound : s.blocks b.hash with
  | some stored =>
    rw [install_found noFail s b stored d hfound rfl]
    have hfound2 : (applyWrite s (WriteOp.putCanonical stored.number stored.hash)).blocks b.hash
        = some stored := by
      simpa [applyWrite] using hfound
    rw [install_found noFail _ b stored d hfound2 rfl]
    exact ⟨applyWrite_canonical_self _ _ _ (by simp [applyWrite]), rfl⟩
  | none =>
    rw [install_fresh noFail s b d hfound (fun _ => rfl)]
    have hfound2 : (applyWrite (applyWrite (applyWrite (applyWrite s (WriteOp.putTd b.hash d))
        (WriteOp.putBlock b.hash b)) (WriteOp.putCanonical b.number b.hash))
        (WriteOp.putHead b.hash)).blocks b.hash = some b := by
      simp [applyWrite]
    rw [install_found noFail _ b b d hfound2 rfl]
    exact ⟨applyWrite_canonical_self _ _ _ (by simp [applyWrite]), rfl⟩

/-- C3: when the built block is already stored under its hash, the
installer attempts only the canonical-number write, returns the stored
block, and leaves the difficulty, block-body and head records untouched. -/
theorem install_already_present (fail : WriteOp → Option String) (s : ChainIndex)
    (b stored : Block) (d : Int)
    (hfound : s.blocks b.hash = some stored)
    (hok : fail (WriteOp.putCanonical stored.number stored.hash) = none) :
    (installGenesisBlock fail s b d).result = .ok stored ∧
    (installGenesisBlock fail s b d).writes
      = [WriteOp.putCanonical stored.number stored.hash] ∧
    (installGenesisBlock fail s b d).state.td = s.td ∧
    (installGenesisBlock fail s b d).state.blocks = s.blocks ∧
    (installGenesisBlock fail s b d).state.head = s.head := by
  simp [installGenesisBlock, hfound, hok, applyWrite]

/-- Witness for C3 at a concrete store holding `cBlock` under hash 1. -/
theorem install_already_present_witness :
    (installGenesisBlock noFail (applyWrite emptyIndex (WriteOp.putBlock 1 cBlock))
        cBlock 5).result = .ok cBlock ∧
    (installGenesisBlock noFail (applyWrite emptyIndex (WriteOp.putBlock 1 cBlock))
        cBlock 5).writes = [WriteOp.putCanonical cBlock.number cBlock.hash] ∧
    (installGenesisBlock noFail (applyWrite emptyIndex (WriteOp.putBlock 1 cBlock))
        cBlock 5).state.td = (applyWrite emptyIndex (WriteOp.putBlock 1 cBlock)).td ∧
    (installGenesisBlock noFail (applyWrite emptyIndex (WriteOp.putBlock 1 cBlock))
        cBlock 5).state.blocks = (applyWrite emptyIndex (WriteOp.putBlock 1 cBlock)).blocks ∧
    (installGenesisBlock noFail (applyWrite emptyIndex (WriteOp.putBlock 1 cBlock))
        cBlock 5).state.head = (applyWrite emptyIndex (WriteOp.putBlock 1 cBlock)).head :=
  install_already_present noFail _ cBlock cBlock 5 (by simp [applyWrite, emptyIndex, cBlock]) rfl

/-- C4: on a fresh install with a normally operating store, the installer
issues exactly the four writes in source order (difficulty, block body,
canonical number, head) and returns the built block; and for any failure
behaviour of the store, the attempted writes are an in-order prefix of
those four, so no later write is issued before every earlier one succeeded. -/
theorem install_fresh_write_order (fail : WriteOp → Option String) (s : ChainIndex)
    (b : Block) (d : Int)
    (hfresh : s.blocks b.hash = none)
    (hok : ∀ op, fail op = none) :
    (installGenesisBlock fail s b d).writes = installOps b d ∧
    (installGenesisBlock fail s b d).result = .ok b ∧
    ∀ fail' : WriteOp → Option String,
      ∃ k, (installGenesisBlock fail' s b d).writes = (installOps b d).take k := by
  refine ⟨by simp [installGenesisBlock, hfresh, hok, installOps],
    by simp [installGenesisBlock, hfresh, hok], ?_⟩
  intro fail'
  cases h1 : fail' (WriteOp.putTd b.hash d) with
  | some e => exact ⟨1, by simp [installGenesisBlock, hfresh, h1, installOps]⟩
  | none =>
    cases h2 : fail' (WriteOp.putBlock b.hash b) with
    | some e => exact ⟨2, by simp [installGenesisBlock, hfresh, h1, h2, installOps]⟩
    | none =>
      cases h3 : fail' (WriteOp.putCanonical b.number b.hash) with
      | some e => exact ⟨3, by simp [installGenesisBlock, hfresh, h1, h2, h3, installOps]⟩
      | none =>
        cases h4 : fail' (WriteOp.putHead b.hash) with
        | some e => exact ⟨4, by simp [installGenesisBlock, hfresh, h1, h2, h3, h4, installOps]⟩
        | none => exact ⟨4, by simp [installGenesisBlock, hfresh, h1, h2, h3, h4, installOps]⟩

/-- Witness for C4 on the empty store. -/
theorem install_fresh_write_order_witness :
    (installGenesisBlock noFail emptyIndex cBlock 5).writes = installOps cBlock 5 ∧
    (installGenesisBlock noFail emptyIndex cBlock 5).result = .ok cBlock ∧
    ∀ fail' : WriteOp → Option String,
      ∃ k, (installGenesisBlock fail' emptyIndex cBlock 5).writes
        = (installOps cBlock 5).take k :=
  install_fresh_write_order noFail emptyIndex cBlock 5 rfl (fun _ => rfl)

/-- C5: if the `i`-th write of the fresh-install sequence is the first to
fail, the store's error is returned unmodified, the failing write is the
last one attempted, and the final state retains exactly the writes that
succeeded before the failure (no rollback). -/
theorem install_write_failure (fail : WriteOp → Option String) (s : ChainIndex)
    (b : Block) (d : Int) (i : Nat) (e : String)
    (hi : i < 4)
    (hfresh : s.blocks b.hash = none)
    (hpre : ∀ j, j < i → fail (nthOp b d j) = none)
    (hfail : fail (nthOp b d i) = some e) :
    (installGenesisBlock fail s b d).result = .error e ∧
    (installGenesisBlock fail s b d).writes = (installOps b d).take (i + 1) ∧
    (installGenesisBlock fail s b d).state
      = List.foldl applyWrite s ((installOps b d).take i) := by
  interval_cases i
  · simp only [nthOp] at hfail
    simp [installGenesisBlock, hfresh, hfail, installOps]
  · have h0 := hpre 0 (by omega)
    simp only [nthOp] at h0 hfail
    simp [installGenesisBlock, hfresh, h0, hfail, installOps]
  · have h0 := hpre 0 (by omega)
    have h1 := hpre 1 (by omega)
    simp only [nthOp] at h0 h1 hfail
    simp [installGenesisBlock, hfresh, h0, h1, hfail, installOps]
  · have h0 := hpre 0 (by omega)
    have h1 := hpre 1 (by omega)
    have h2 := hpre 2 (by omega)
    simp only [nthOp] at h0 h1 h2 hfail
    simp [installGenesisBlock, hfresh, h0, h1, h2, hfail, installOps]

/-- Witness for C5: a store whose block-body write (index 1) fails. -/
theorem install_write_failure_witness :
    (installGenesisBlock
        (fun op => match op with | WriteOp.putBlock _ _ => some "disk full" | _ => none)
        emptyIndex cBlock 5).result = .error "disk full" ∧
    (installGenesisBlock
        (fun op => match op with | WriteOp.putBlock _ _ => some "disk full" | _ => none)
        emptyIndex cBlock 5).writes = (installOps cBlock 5).take 2 ∧
    (installGenesisBlock
        (fun op => match op with | WriteOp.putBlock _ _ => some "disk full" | _ => none)
        emptyIndex cBlock 5).state
      = List.foldl applyWrite emptyIndex ((installOps cBlock 5).take 1) :=
  install_write_failure _ emptyIndex cBlock 5 1 "disk full" (by omega) rfl
    (by intro j hj; interval_cases j; rfl) rfl

/-- C1 counterexample: after a crash that persisted only the difficulty and
block-body writes, re-running the installer does NOT complete the head
write: the head pointer stays empty while a clean single-pass install sets
it, so the two final states differ. -/
theorem install_resume_counterexample :
    (installGenesisBlock noFail cCrashState cBlock 5).state.head = none ∧
    (installGenesisBlock noFail emptyIndex cBlock 5).state.head = some 1 ∧
    WriteOp.putHead 1 ∉ (installGenesisBlock noFail cCrashState cBlock 5).writes ∧
    (installGenesisBlock noFail cCrashState cBlock 5).state
      ≠ (installGenesisBlock noFail emptyIndex cBlock 5).state := by
  refine ⟨rfl, rfl, by decide, ?_⟩
  intro h
  have hh := congrArg ChainIndex.head h
  simp only [show (installGenesisBlock noFail cCrashState cBlock 5).state.head = none from rfl,
    show (installGenesisBlock noFail emptyIndex cBlock 5).state.head = some 1 from rfl] at hh
  exact Option.noConfusion hh

/-- C1 amended: after a crash that persisted only the difficulty and
block-body writes, a re-run completes the canonical write without
re-writing the block or difficulty records and returns the block; the
resulting state agrees with a clean single-pass install on the block,
difficulty and canonical records, but the head pointer is not written and
retains its pre-crash value. -/
theorem install_resume_completes_canonical (s : ChainIndex) (b : Block) (d : Int)
    (hfresh : s.blocks b.hash = none) :
    (installGenesisBlock noFail
        (applyWrite (applyWrite s (WriteOp.putTd b.hash d)) (WriteOp.putBlock b.hash b))
        b d).result = .ok b ∧
    (installGenesisBlock noFail
        (applyWrite (applyWrite s (WriteOp.putTd b.hash d)) (WriteOp.putBlock b.hash b))
        b d).writes = [WriteOp.putCanonical b.number b.hash] ∧
    (installGenesisBlock noFail
        (applyWrite (applyWrite s (WriteOp.putTd b.hash d)) (WriteOp.putBlock b.hash b))
        b d).state.blocks = (installGenesisBlock noFail s b d).state.blocks ∧
    (installGenesisBlock noFail
        (applyWrite (applyWrite s (WriteOp.putTd b.hash d)) (WriteOp.putBlock b.hash b))
        b d).state.td = (installGenesisBlock noFail s b d).state.td ∧
    (installGenesisBlock noFail
        (applyWrite (applyWrite s (WriteOp.putTd b.hash d)) (WriteOp.putBlock b.hash b))
        b d).state.canonical = (installGenesisBlock noFail s b d).state.canonical ∧
    (installGenesisBlock noFail
        (applyWrite (applyWrite s (WriteOp.putTd b.hash d)) (WriteOp.putBlock b.hash b))
        b d).state.head = s.head := by
  have hb : (applyWrite (applyWrite s (WriteOp.putTd b.hash d))
      (WriteOp.putBlock b.hash b)).blocks b.hash = some b := by
    simp [applyWrite]
  rw [install_found noFail _ b b d hb rfl, install_fresh noFail s b d hfresh (fun _ => rfl)]
  refine ⟨rfl, rfl, ?_, ?_, ?_, rfl⟩ <;> simp [applyWrite]

/-- Witness for C1's amended statement on the empty store. -/
theorem install_resume_completes_canonical_witness :
    (installGenesisBlock noFail
        (applyWrite (applyWrite emptyIndex (WriteOp.putTd cBlock.hash 5))
          (WriteOp.putBlock cBlock.hash cBlock)) cBlock 5).result = .ok cBlock ∧
    (installGenesisBlock noFail
        (applyWrite (applyWrite emptyIndex (WriteOp.putTd cBlock.hash 5))
          (WriteOp.putBlock cBlock.hash cBlock)) cBlock 5).writes
      = [WriteOp.putCanonical cBlock.number cBlock.hash] ∧
    (installGenesisBlock noFail
        (applyWrite (applyWrite emptyIndex (WriteOp.putTd cBlock.hash 5))
          (WriteOp.putBlock cBlock.hash cBlock)) cBlock 5).state.blocks
      = (installGenesisBlock noFail emptyIndex cBlock 5).state.blocks ∧
    (installGenesisBlock noFail
        (applyWrite (applyWrite emptyIndex (WriteOp.putTd cBlock.hash 5))
          (WriteOp.putBlock cBlock.hash cBlock)) cBlock 5).state.td
      = (installGenesisBlock noFail emptyIndex cBlock 5).state.td ∧
    (installGenesisBlock noFail
        (applyWrite (applyWrite emptyIndex (WriteOp.putTd cBlock.hash 5))
          (WriteOp.putBlock cBlock.hash cBlock)) cBlock 5).state.canonical
      = (installGenesisBlock noFail emptyIndex cBlock 5).state.canonical ∧
    (installGenesisBlock noFail
        (applyWrite (applyWrite emptyIndex (WriteOp.putTd cBlock.hash 5))
          (WriteOp.putBlock cBlock.hash cBlock)) cBlock 5).state.head = emptyIndex.head :=
  install_resume_completes_canonical emptyIndex cBlock 5 rfl

/-- Helper: a successful result is ok. -/
@[simp]
theorem isOk_ok {α : Type} (a : α) : (Except.ok a : Except String α).isOk = true := rfl

/-- Helper: a failed result is not ok. -/
@[simp]
theorem isOk_error {α : Type} (e : String) :
    (Except.error e : Except String α).isOk = false := rfl

/-- Helper: `isOk` of an `Except` bind. -/
theorem isOk_bind {α β : Type} (e : Except String α) (f : α → Except String β) :
    (e >>= f).isOk = (match e with | .ok a => (f a).isOk | .error _ => false) := by
  cases e <;> rfl

/-- Helper: `isOk`-shaped match with a constant success arm. -/
theorem match_isOk_and {α : Type} (e : Except String α) (c : Bool) :
    (match e with | .ok _ => c | .error _ => false) = (e.isOk && c) := by
  cases e <;> simp

/-- Helper: `isOk` of an `Except` map. -/
theorem isOk_map {α β : Type} (g : α → β) (e : Except String α) :
    (Except.map g e).isOk = e.isOk := by
  cases e <;> rfl

/-- Helper: pointwise-equal predicates give the same `all`. -/
theorem all_congrB {α : Type} {l : List α} {f g : α → Bool}
    (h : ∀ x ∈ l, f x = g x) : l.all f = l.all g := by
  induction l with
  | nil => rfl
  | cons x xs ih => simp_all

/-- Helper: element-wise decoding succeeds exactly when every element
decodes. -/
theorem mapMEx_isOk {α β : Type} (f : α → Except String β) (l : List α) :
    (mapMEx f l).isOk = l.all fun x => (f x).isOk := by
  induction l with
  | nil => rfl
  | cons x xs ih =>
    cases hx : f x with
    | error e => simp [mapMEx, hx]
    | ok y =>
      cases hxs : mapMEx f xs with
      | error e => rw [hxs] at ih; simp [mapMEx, hx, hxs, ← ih]
      | ok ys => rw [hxs] at ih; simp [mapMEx, hx, hxs, ← ih]

/-- Helper: a JSON value unmarshals into a Go string exactly when it is
string-shaped. -/
theorem decodeString_isOk (j : Json) : (decodeString j).isOk = stringShaped j := by
  cases j <;> rfl

/-- Helper: a named string field unmarshals exactly when absent or
string-shaped. -/
theorem decodeStringField_isOk (fields : List (String × Json)) (name : String) :
    (decodeStringField fields name).isOk
      = (match jsonField fields name with | none => true | some j => stringShaped j) := by
  cases h : jsonField fields name <;> simp [decodeStringField, h, decodeString_isOk]

/-- Helper: the storage member unmarshals exactly when storage-shaped. -/
theorem decodeStorage_isOk (j : Json) : (decodeStorage j).isOk = storageShaped j := by
  cases j with
  | obj kvs =>
    simp only [decodeStorage, storageShaped, mapMEx_isOk]
    exact all_congrB fun p _ => by rw [isOk_map, decodeString_isOk]
  | null => rfl
  | bool b => rfl
  | num n => rfl
  | str s => rfl
  | arr elems => rfl

/-- Helper: one allocation entry unmarshals exactly when account-shaped. -/
theorem decodeAccount_isOk (j : Json) : (decodeAccount j).isOk = accountShaped j := by
  cases j with
  | obj fields =>
    simp only [decodeAccount, accountShaped, isOk_bind]
    cases hc : decodeStringField fields "code" with
    | error e =>
      have h1 := decodeStringField_isOk fields "code"
      rw [hc] at h1
      rw [← h1]
      rfl
    | ok code =>
      have h1 := decodeStringField_isOk fields "code"
      rw [hc] at h1
      rw [← h1]
      cases hs : jsonField fields "storage" with
      | none =>
        simp only [hs, isOk_bind]
        cases hb : decodeStringField fields "balance" with
        | error e =>
          have h2 := decodeStringField_isOk fields "balance"
          rw [hb] at h2
          rw [← h2]
          rfl
        | ok balance =>
          have h2 := decodeStringField_isOk fields "balance"
          rw [hb] at h2
          rw [← h2]
          rfl
      | some js =>
        simp only [hs, isOk_bind]
        cases hst : decodeStorage js with
        | error e =>
          have h2 := decodeStorage_isOk js
          rw [hst] at h2
          rw [← h2]
          rfl
        | ok stor =>
          have h2 := decodeStorage_isOk js
          rw [hst] at h2
          rw [← h2]
          cases hb : decodeStringField fields "balance" with
          | error e =>
            have h3 := decodeStringField_isOk fields "balance"
            rw [hb] at h3
            rw [← h3]
            rfl
          | ok balance =>
            have h3 := decodeStringField_isOk fields "balance"
            rw [hb] at h3
            rw [← h3]
            rfl
  | null => rfl
  | bool b => rfl
  | num n => rfl
  | str s => rfl
  | arr elems => rfl

/-- Helper: the allocation table unmarshals exactly when alloc-shaped. -/
theorem decodeAlloc_isOk (j : Json) : (decodeAlloc j).isOk = allocShaped j := by
  cases j with
  | obj kvs =>
    simp only [decodeAlloc, allocShaped, mapMEx_isOk]
    exact all_congrB fun p _ => by rw [isOk_map, decodeAccount_isOk]
  | null => rfl
  | bool b => rfl
  | num n => rfl
  | str s => rfl
  | arr elems => rfl

/-- Helper: the alloc member of the genesis struct unmarshals exactly when
absent or alloc-shaped. -/
theorem allocField_isOk (fields : List (String × Json)) :
    (match jsonField fields "alloc" with
      | none => Except.ok ([] : List (String × RawAccount))
      | some js => decodeAlloc js).isOk
      = (match jsonField fields "alloc" with
         | none => true | some j => allocShaped j) := by
  cases h : jsonField fields "alloc" <;> simp [decodeAlloc_isOk]

/-- Helper: the alloc match-and-bind tail of the loader succeeds exactly
when the alloc member is absent or alloc-shaped. -/
theorem allocMatch_isOk (fields : List (String × Json))
    (g : List (String × RawAccount) → RawGenesis) :
    (match jsonField fields "alloc" with
      | none => Except.ok [] >>= fun l => Except.ok (g l)
      | some js => decodeAlloc js >>= fun l => Except.ok (g l)).isOk
      = (match jsonField fields "alloc" with
         | none => true | some j => allocShaped j) := by
  cases h : jsonField fields "alloc" with
  | none => rfl
  | some js =>
    rw [isOk_bind]
    simp only [isOk_ok, match_isOk_and, Bool.and_true, decodeAlloc_isOk]

/-- Helper: the loader succeeds exactly on structurally well-formed
documents. -/
theorem decodeGenesis_isOk (j : Json) : (decodeGenesis j).isOk = genesisShaped j := by
  cases j with
  | obj fields =>
    simp only [decodeGenesis, genesisShaped, List.all_cons, List.all_nil, Bool.and_true,
      isOk_bind, allocMatch_isOk, match_isOk_and, isOk_ok,
      decodeStringField_isOk]
    simp [Bool.and_assoc]
  | null => rfl
  | bool b => rfl
  | num n => rfl
  | str s => rfl
  | arr elems => rfl

/-- C6 (amended): the genesis loader fails with an error exactly when the
document is structurally malformed; when it fails, the error is surfaced to
the caller and the chain index is returned unchanged (no partial state
committed). -/
theorem loader_error_iff_malformed (j : Json) :
    (decodeGenesis j).isOk = genesisShaped j ∧
    ∀ (fail : WriteOp → Option String) (commit : WorldState → Nat)
      (hashFn : HeaderModel → Nat) (s : ChainIndex) (e : String),
      decodeGenesis j = .error e →
      WriteGenesisBlock fail commit hashFn s j = (.error e, s) := by
  refine ⟨decodeGenesis_isOk j, ?_⟩
  intro fail commit hashFn s e h
  simp [WriteGenesisBlock, h]

/-- Witness for C6: a non-object document fails with the struct
unmarshalling error and leaves the empty store untouched. -/
theorem loader_error_iff_malformed_witness :
    (decodeGenesis (Json.num 3)).isOk = genesisShaped (Json.num 3) ∧
    WriteGenesisBlock noFail (fun _ => 0) (fun _ => 0) emptyIndex (Json.num 3)
      = (.error "json: cannot unmarshal value into Go struct", emptyIndex) :=
  ⟨(loader_error_iff_malformed (Json.num 3)).1,
   (loader_error_iff_malformed (Json.num 3)).2 noFail (fun _ => 0) (fun _ => 0)
     emptyIndex "json: cannot unmarshal value into Go struct" rfl⟩

/-- C6 counterexample: an allocation entry whose balance string cannot be
parsed as a number does not make the loader fail; the entry is accepted and
the unparseable balance acts as zero. -/
theorem loader_unparseable_balance_counterexample :
    parseBigBase0 "zz" = none ∧
    string2Big "zz" = 0 ∧
    decodeGenesis cBadBalanceJson
      = .ok ⟨"", "", "", "", "", "", "", "",
          [("0000000000000000000000000000000000000001", ⟨"", [], "zz"⟩)]⟩ :=
  ⟨rfl, rfl, rfl⟩

/-- Helper: two updates of the same address compose. -/
theorem updAt_updAt_same (st : WorldState) (a : Nat) (f g : Account → Account) :
    updAt (updAt st a f) a g = updAt st a fun ac => g (f ac) := by
  funext x
  by_cases h : x = a <;> simp [updAt, h]

/-- Helper: updates of distinct addresses commute. -/
theorem updAt_updAt_ne (st : WorldState) (a b : Nat) (f g : Account → Account)
    (h : a ≠ b) : updAt (updAt st a f) b g = updAt (updAt st b g) a f := by
  funext x
  by_cases hx : x = a
  · subst hx
    simp [updAt, h, Ne.symm h]
  · by_cases hy : x = b
    · subst hy
      simp [updAt, Ne.symm h, hx]
    · simp [updAt, hx, hy]

/-- Helper: the storage loop over one entry is a single-account update. -/
theorem foldl_setState_updAt (a : Nat) (l : List (String × String)) :
    ∀ (st : WorldState) (f : Account → Account),
      l.foldl (fun st kv => setState st a (hexToHash kv.1) (hexToHash kv.2)) (updAt st a f)
        = updAt st a fun ac =>
            l.foldl (fun ac kv =>
              { ac with storage := fun k' => if k' = hexToHash kv.1 then hexToHash kv.2
                  else ac.storage k' }) (f ac) := by
  induction l with
  | nil => intro st f; rfl
  | cons kv rest ih =>
    intro st f
    rw [List.foldl_cons,
      show setState (updAt st a f) a (hexToHash kv.1) (hexToHash kv.2)
          = updAt st a (fun ac =>
              { f ac with storage := fun k' => if k' = hexToHash kv.1 then hexToHash kv.2
                  else (f ac).storage k' }) from by
        rw [setState, updAt_updAt_same],
      ih]
    rfl

/-- Helper: materializing one entry only touches its own address. -/
theorem applyAlloc_eq_updAt (st : WorldState) (entry : String × RawAccount) :
    applyAlloc st entry = updAt st (hexToAddress entry.1) (entryUpdate entry) := by
  simp only [applyAlloc, addBalance, setCode, updAt_updAt_same]
  rw [foldl_setState_updAt]
  rfl

/-- Helper: entries at distinct addresses (or equal entries) commute. -/
theorem applyAlloc_comm (st : WorldState) (p q : String × RawAccount)
    (h : hexToAddress p.1 ≠ hexToAddress q.1 ∨ p = q) :
    applyAlloc (applyAlloc st p) q = applyAlloc (applyAlloc st q) p := by
  rcases h with h | rfl
  · rw [applyAlloc_eq_updAt, applyAlloc_eq_updAt, applyAlloc_eq_updAt, applyAlloc_eq_updAt]
    exact updAt_updAt_ne _ _ _ _ _ h
  · rfl

/-- Helper: with pairwise-distinct addresses, the materialized world state
does not depend on the iteration order of the allocation table. -/
theorem materialize_perm (l₁ l₂ : List (String × RawAccount))
    (hperm : l₁.Perm l₂)
    (hdist : l₁.Pairwise fun p q => hexToAddress p.1 ≠ hexToAddress q.1) :
    materialize l₁ = materialize l₂ := by
  unfold materialize
  refine hperm.foldl_eq' ?_ emptyWorldState
  intro x hx y hy z
  by_cases hxy : x = y
  · subst hxy; rfl
  · exact applyAlloc_comm z x y
      (.inl (List.Pairwise.forall (fun _ _ h => Ne.symm h) hdist hx hy hxy))

/-- C7: two runs of the genesis construction over the same well-formed spec
(the allocation table traversed in any two iteration orders; well-formed
means pairwise-distinct addresses, spec section 3) produce the same block
hash and the same state root, for every commitment and header-hash
collaborator. -/
theorem build_deterministic (commit : WorldState → Nat) (hashFn : HeaderModel → Nat)
    (g : RawGenesis) (l₂ : List (String × RawAccount))
    (hperm : g.alloc.Perm l₂)
    (hdist : g.alloc.Pairwise fun p q => hexToAddress p.1 ≠ hexToAddress q.1) :
    genesisBlockHash commit hashFn { g with alloc := l₂ }
      = genesisBlockHash commit hashFn g ∧
    (genesisHeader commit { g with alloc := l₂ }).root
      = (genesisHeader commit g).root := by
  have hm : materialize l₂ = materialize g.alloc :=
    (materialize_perm g.alloc l₂ hperm hdist).symm
  exact ⟨by simp [genesisBlockHash, genesisHeader, hm], by simp [genesisHeader, hm]⟩

/-- Witness for C7 on a concrete spec, reversed iteration order,
and simple concrete collaborators. -/
theorem build_deterministic_witness :
    genesisBlockHash (fun st => (st 1).balance.toNat) (fun hd => hd.root + hd.nonce)
        { c7SpecA with alloc := c7SpecA.alloc.reverse }
      = genesisBlockHash (fun st => (st 1).balance.toNat) (fun hd => hd.root + hd.nonce)
          c7SpecA ∧
    (genesisHeader (fun st => (st 1).balance.toNat)
        { c7SpecA with alloc := c7SpecA.alloc.reverse }).root
      = (genesisHeader (fun st => (st 1).balance.toNat) c7SpecA).root :=
  build_deterministic (fun st => (st 1).balance.toNat) (fun hd => hd.root + hd.nonce)
    c7SpecA c7SpecA.alloc.reverse (List.reverse_perm _).symm (by decide)

/-- Helper: one encoded byte parses back onto the accumulator. -/
theorem parseDigitsAux_byteHex (b : Nat) (rest : List Char) (acc : Nat) :
    parseDigitsAux 16 (byteHex b ++ rest) acc
      = parseDigitsAux 16 rest (acc * 256 + b % 256) := by
  have h1 : b / 16 % 16 < 16 := Nat.mod_lt _ (by norm_num)
  have h2 : b % 16 < 16 := Nat.mod_lt _ (by norm_num)
  have e1 : digitVal 16 (hexDigitChar (b / 16 % 16)) = some (b / 16 % 16) := by
    have : ∀ d, d < 16 → digitVal 16 (hexDigitChar d) = some d := by decide
    exact this _ h1
  have e2 : digitVal 16 (hexDigitChar (b % 16)) = some (b % 16) := by
    have : ∀ d, d < 16 → digitVal 16 (hexDigitChar d) = some d := by decide
    exact this _ h2
  simp only [byteHex, List.cons_append, List.nil_append, parseDigitsAux, e1, e2]
  congr 1
  omega

/-- Helper: a hex-printed byte string parses back to its big-endian
value. -/
theorem parseDigitsAux_bytesHex (bs : List Nat) :
    ∀ acc : Nat,
      parseDigitsAux 16 (bs.foldr (fun b acc => byteHex b ++ acc) []) acc
        = some (bs.foldl (fun a b => a * 256 + b % 256) acc) := by
  induction bs with
  | nil => intro acc; rfl
  | cons b rest ih =>
    intro acc
    simp only [List.foldr_cons, List.foldl_cons, parseDigitsAux_byteHex, ih]

/-- Helper: the `0x`-prefixed hex print of a nonempty byte list parses back
to its big-endian value. -/
theorem parseBigBase0_bytesHex (b : Nat) (bs : List Nat) :
    parseBigBase0 ("0x" ++ bytesHex (b :: bs))
      = some (((b :: bs).foldl (fun a c => a * 256 + c % 256) 0 : Nat) : Int) := by
  have hdata : ("0x" ++ bytesHex (b :: bs)).data
      = '0' :: 'x' :: ((b :: bs).foldr (fun c acc => byteHex c ++ acc) []) := by
    simp [bytesHex, String.data_append]
  have hrfl : parseBigBase0 ("0x" ++ bytesHex (b :: bs))
      = parseBigBase0 ⟨'0' :: 'x' :: ((b :: bs).foldr (fun c acc => byteHex c ++ acc) [])⟩ :=
    congrArg parseBigBase0 (String.ext hdata)
  rw [hrfl]
  show (parseDigits 16 ((b :: bs).foldr (fun c acc => byteHex c ++ acc) [])).map
      (fun m => (m : Int)) = _
  have : (b :: bs).foldr (fun c acc => byteHex c ++ acc) []
      = byteHex b ++ (bs.foldr (fun c acc => byteHex c ++ acc) []) := rfl
  rw [this]
  show (parseDigitsAux 16 _ 0).map (fun m => (m : Int)) = _
  rw [show byteHex b ++ bs.foldr (fun c acc => byteHex c ++ acc) []
      = byteHex b ++ bs.foldr (fun c acc => byteHex c ++ acc) [] from rfl,
    parseDigitsAux_byteHex, parseDigitsAux_bytesHex]
  simp [List.foldl_cons]

/-- Helper: the nonce bytes fold back to the nonce modulo 2^64. -/
theorem encodeNonce_foldl (n : Nat) :
    (encodeNonce n).foldl (fun a c => a * 256 + c % 256) 0 = n % 2 ^ 64 := by
  simp only [encodeNonce, List.foldl_cons, List.foldl_nil]
  have s0 : 0 * 256 + n / 2 ^ 56 % 256 % 256 = n / 2 ^ 56 % 2 ^ 8 := by omega
  have s1 : n / 2 ^ 56 % 2 ^ 8 * 256 + n / 2 ^ 48 % 256 % 256 = n / 2 ^ 48 % 2 ^ 16 := by
    have h : n / 2 ^ 56 = n / 2 ^ 48 / 2 ^ 8 := by
      rw [Nat.div_div_eq_div_mul]; norm_num
    rw [h]; generalize n / 2 ^ 48 = m; omega
  have s2 : n / 2 ^ 48 % 2 ^ 16 * 256 + n / 2 ^ 40 % 256 % 256 = n / 2 ^ 40 % 2 ^ 24 := by
    have h : n / 2 ^ 48 = n / 2 ^ 40 / 2 ^ 8 := by
      rw [Nat.div_div_eq_div_mul]; norm_num
    rw [h]; generalize n / 2 ^ 40 = m; omega
  have s3 : n / 2 ^ 40 % 2 ^ 24 * 256 + n / 2 ^ 32 % 256 % 256 = n / 2 ^ 32 % 2 ^ 32 := by
    have h : n / 2 ^ 40 = n / 2 ^ 32 / 2 ^ 8 := by
      rw [Nat.div_div_eq_div_mul]; norm_num
    rw [h]; generalize n / 2 ^ 32 = m; omega
  have s4 : n / 2 ^ 32 % 2 ^ 32 * 256 + n / 2 ^ 24 % 256 % 256 = n / 2 ^ 24 % 2 ^ 40 := by
    have h : n / 2 ^ 32 = n / 2 ^ 24 / 2 ^ 8 := by
      rw [Nat.div_div_eq_div_mul]; norm_num
    rw [h]; generalize n / 2 ^ 24 = m; omega
  have s5 : n / 2 ^ 24 % 2 ^ 40 * 256 + n / 2 ^ 16 % 256 % 256 = n / 2 ^ 16 % 2 ^ 48 := by
    have h : n / 2 ^ 24 = n / 2 ^ 16 / 2 ^ 8 := by
      rw [Nat.div_div_eq_div_mul]; norm_num
    rw [h]; generalize n / 2 ^ 16 = m; omega
  have s6 : n / 2 ^ 16 % 2 ^ 48 * 256 + n / 2 ^ 8 % 256 % 256 = n / 2 ^ 8 % 2 ^ 56 := by
    have h : n / 2 ^ 16 = n / 2 ^ 8 / 2 ^ 8 := by
      rw [Nat.div_div_eq_div_mul]; norm_num
    rw [h]; generalize n / 2 ^ 8 = m; omega
  have s7 : n / 2 ^ 8 % 2 ^ 56 * 256 + n % 256 % 256 = n % 2 ^ 64 := by
    omega
  rw [s0, s1, s2, s3, s4, s5, s6, s7]

/-- Helper: the testnet nonce string parses back to the nonce modulo
2^64. -/
theorem string2Big_nonceHex (n : Nat) :
    string2Big ("0x" ++ bytesHex (encodeNonce n)) = ((n % 2 ^ 64 : Nat) : Int) := by
  rw [string2Big, show encodeNonce n = (n / 2 ^ 56 % 256) ::
      [n / 2 ^ 48 % 256, n / 2 ^ 40 % 256, n / 2 ^ 32 % 256, n / 2 ^ 24 % 256,
        n / 2 ^ 16 % 256, n / 2 ^ 8 % 256, n % 256] from rfl,
    parseBigBase0_bytesHex]
  rw [show ((n / 2 ^ 56 % 256) ::
      [n / 2 ^ 48 % 256, n / 2 ^ 40 % 256, n / 2 ^ 32 % 256, n / 2 ^ 24 % 256,
        n / 2 ^ 16 % 256, n / 2 ^ 8 % 256, n % 256]) = encodeNonce n from rfl,
    encodeNonce_foldl]
  rfl

/-- C8: the testnet genesis document parses to a spec with exactly twelve
allocation entries (four of balance 1, eight of one fixed large balance),
carrying the given nonce and the default difficulty and gas limit, and any
two runs of the construction over it (any two iteration orders of the
table) produce the same block hash. -/
theorem writeTestNet_genesis_spec (n : Nat) (hn : n < 2 ^ 64) :
    decodeGenesis (testNetGenesisJson n) = .ok (testNetSpec n) ∧
    (testNetSpec n).alloc.length = 12 ∧
    ((testNetSpec n).alloc.filter fun p => string2Big p.2.balance == (1 : Int)).length = 4 ∧
    ((testNetSpec n).alloc.filter fun p => string2Big p.2.balance
        == (1606938044258990275541962092341162602522202993782792835301376 : Int)).length
      = 8 ∧
    (∀ commit : WorldState → Nat,
      (genesisHeader commit (testNetSpec n)).nonce = n ∧
      (genesisHeader commit (testNetSpec n)).difficulty = (genesisDifficulty : Int) ∧
      (genesisHeader commit (testNetSpec n)).gasLimit = (genesisGasLimit : Int)) ∧
    ∀ (commit : WorldState → Nat) (hashFn : HeaderModel → Nat)
      (l₂ : List (String × RawAccount)),
      (testNetSpec n).alloc.Perm l₂ →
      genesisBlockHash commit hashFn { testNetSpec n with alloc := l₂ }
        = genesisBlockHash commit hashFn (testNetSpec n) := by
  refine ⟨rfl, rfl,
    by show (List.filter (fun p => string2Big p.2.balance == (1 : Int))
        testNetAllocSpec).length = 4; decide,
    by show (List.filter (fun p => string2Big p.2.balance
        == (1606938044258990275541962092341162602522202993782792835301376 : Int))
        testNetAllocSpec).length = 8; decide, ?_, ?_⟩
  · intro commit
    refine ⟨?_,
      by show string2Big ("0x" ++ bytesHex (natBytes genesisDifficulty))
          = (genesisDifficulty : Int); decide,
      by show string2Big ("0x" ++ bytesHex (natBytes genesisGasLimit))
          = (genesisGasLimit : Int); decide⟩
    show (string2Big (testNetSpec n).nonce).toNat % 2 ^ 64 = n
    rw [show (testNetSpec n).nonce = "0x" ++ bytesHex (encodeNonce n) from rfl,
      string2Big_nonceHex]
    omega
  · intro commit hashFn l₂ hperm
    have hdist : (testNetSpec n).alloc.Pairwise
        (fun p q => hexToAddress p.1 ≠ hexToAddress q.1) := by
      show testNetAllocSpec.Pairwise (fun p q => hexToAddress p.1 ≠ hexToAddress q.1)
      decide
    have hm : materialize l₂ = materialize (testNetSpec n).alloc :=
      (materialize_perm _ _ hperm hdist).symm
    simp [genesisBlockHash, genesisHeader, hm]

/-- Witness for C8 at nonce 7. -/
theorem writeTestNet_genesis_spec_witness :
    decodeGenesis (testNetGenesisJson 7) = .ok (testNetSpec 7) ∧
    (testNetSpec 7).alloc.length = 12 ∧
    ((testNetSpec 7).alloc.filter fun p => string2Big p.2.balance == (1 : Int)).length = 4 ∧
    ((testNetSpec 7).alloc.filter fun p => string2Big p.2.balance
        == (1606938044258990275541962092341162602522202993782792835301376 : Int)).length
      = 8 ∧
    (∀ commit : WorldState → Nat,
      (genesisHeader commit (testNetSpec 7)).nonce = 7 ∧
      (genesisHeader commit (testNetSpec 7)).difficulty = (genesisDifficulty : Int) ∧
      (genesisHeader commit (testNetSpec 7)).gasLimit = (genesisGasLimit : Int)) ∧
    ∀ (commit : WorldState → Nat) (hashFn : HeaderModel → Nat)
      (l₂ : List (String × RawAccount)),
      (testNetSpec 7).alloc.Perm l₂ →
      genesisBlockHash commit hashFn { testNetSpec 7 with alloc := l₂ }
        = genesisBlockHash commit hashFn (testNetSpec 7) :=
  writeTestNet_genesis_spec 7 (by decide)

/-- Helper: a successful table lookup is a table entry. -/
theorem mlookup_mem (l : List (String × Handler)) (m : String) (h : Handler)
    (hl : mlookup l m = some h) : (m, h) ∈ l := by
  induction l with
  | nil => exact absurd hl (by simp [mlookup])
  | cons e rest ih =>
    obtain ⟨k, v⟩ := e
    by_cases hk : k = m
    · subst hk
      simp only [mlookup, if_pos rfl] at hl
      obtain rfl : v = h := Option.some.injEq .. ▸ hl
      exact List.mem_cons_self _ _
    · simp only [mlookup, if_neg hk] at hl
      exact List.mem_cons_of_mem _ (ih hl)

set_option maxRecDepth 100000 in
/-- Helper: every table entry whose key starts with `exp_` has an `eth_`
counterpart bound to the same handler (checked over the whole table). -/
theorem exp_eth_table :
    ∀ e ∈ ethMapping, e.1.data.take 4 = ['e', 'x', 'p', '_'] →
      mlookup ethMapping ⟨['e', 't', 'h', '_'] ++ e.1.data.drop 4⟩ = some e.2 := by
  decide

/-- C9 (amended): every method suffix X mapped under `exp_X` is also mapped
under `eth_X` to the very same handler function, and Execute returns the
same result and error for the two spellings whenever the mapped handler's
output does not depend on the request's method name (Flush, for instance,
embeds the method name in its not-implemented error, so its two errors
differ). -/
theorem exp_eth_same_handler (X : String) (h : Handler)
    (hl : mlookup ethMapping ("exp_" ++ X) = some h) :
    mlookup ethMapping ("eth_" ++ X) = some h ∧
    ∀ (impl : Handler → Request → Except ApiErr String) (i : Nat) (p : String),
      (∀ r r' : Request, r.id = r'.id → r.params = r'.params → impl h r = impl h r') →
      Execute impl ⟨i, "exp_" ++ X, p⟩ = Execute impl ⟨i, "eth_" ++ X, p⟩ := by
  have hmem : ("exp_" ++ X, h) ∈ ethMapping := mlookup_mem _ _ _ hl
  have hdata : ("exp_" ++ X).data = ['e', 'x', 'p', '_'] ++ X.data := by
    rw [String.data_append]
  have hlen4 : (['e', 'x', 'p', '_'] : List Char).length = 4 := rfl
  have htake : ("exp_" ++ X).data.take 4 = ['e', 'x', 'p', '_'] := by
    rw [hdata, List.take_left' hlen4]
  have hdrop : ("exp_" ++ X).data.drop 4 = X.data := by
    rw [hdata, List.drop_left' hlen4]
  have heth0 := exp_eth_table ("exp_" ++ X, h) hmem htake
  have hstr : ("eth_" ++ X) = ⟨['e', 't', 'h', '_'] ++ ("exp_" ++ X).data.drop 4⟩ := by
    apply String.ext
    rw [String.data_append, hdrop]
  have heth : mlookup ethMapping ("eth_" ++ X) = some h := by
    rw [hstr]
    exact heth0
  refine ⟨heth, ?_⟩
  intro impl i p hins
  simp only [Execute, hl, heth]
  exact hins ⟨i, "exp_" ++ X, p⟩ ⟨i, "eth_" ++ X, p⟩ rfl rfl

/-- Witness for C9's amended statement at the suffix "blockNumber" with a
method-insensitive interpretation. -/
theorem exp_eth_same_handler_witness :
    mlookup ethMapping ("eth_" ++ "blockNumber") = some Handler.BlockNumber ∧
    Execute (fun _ _ => .ok "r") ⟨1, "exp_" ++ "blockNumber", "[]"⟩
      = Execute (fun _ _ => .ok "r") ⟨1, "eth_" ++ "blockNumber", "[]"⟩ :=
  ⟨(exp_eth_same_handler "blockNumber" Handler.BlockNumber (by decide)).1,
   (exp_eth_same_handler "blockNumber" Handler.BlockNumber (by decide)).2
     (fun _ _ => .ok "r") 1 "[]" (fun _ _ _ _ => rfl)⟩

/-- C9 counterexample: `exp_flush` and `eth_flush` dispatch to the very
same handler (Flush), yet Execute does not return the same error for
otherwise identical requests, because Flush embeds the request's method
name in its not-implemented error. -/
theorem exp_eth_execute_counterexample :
    mlookup ethMapping "exp_flush" = some Handler.Flush ∧
    mlookup ethMapping "eth_flush" = some Handler.Flush ∧
    Execute (implWithFlush fun _ _ => .ok "") ⟨1, "exp_flush", "[]"⟩
      = .error (.notImplemented "exp_flush") ∧
    Execute (implWithFlush fun _ _ => .ok "") ⟨1, "eth_flush", "[]"⟩
      = .error (.notImplemented "eth_flush") ∧
    Execute (implWithFlush fun _ _ => .ok "") ⟨1, "exp_flush", "[]"⟩
      ≠ Execute (implWithFlush fun _ _ => .ok "") ⟨1, "eth_flush", "[]"⟩ := by
  have h3 : Execute (implWithFlush fun _ _ => .ok "") ⟨1, "exp_flush", "[]"⟩
      = .error (.notImplemented "exp_flush") := rfl
  have h4 : Execute (implWithFlush fun _ _ => .ok "") ⟨1, "eth_flush", "[]"⟩
      = .error (.notImplemented "eth_flush") := rfl
  refine ⟨by decide, by decide, h3, h4, ?_⟩
  rw [h3, h4]
  intro heq
  injection heq with h5
  injection h5 with h6
  exact absurd h6 (by decide)

/-- C10: in all four index-guarded read handlers, a decoded index that is
negative or not below the number of transactions (respectively uncles) of
the resolved block yields a nil result with a nil error, and the guarded
list access can never go out of bounds. -/
theorem index_guard_safe (blockByHash : String → Option RawBlock)
    (blockByNumber : Int → Option RawBlock) (td : Nat → Int) :
    (∀ (args : HashIndexArgs) (raw : RawBlock), blockByHash args.hash = some raw →
      args.index < 0 ∨ (raw.transactions.length : Int) ≤ args.index →
      GetTransactionByBlockHashAndIndex blockByHash td (.ok args) = .ok none) ∧
    (∀ (args : BlockNumIndexArgs) (raw : RawBlock),
      blockByNumber args.blockNumber = some raw →
      args.index < 0 ∨ (raw.transactions.length : Int) ≤ args.index →
      GetTransactionByBlockNumberAndIndex blockByNumber td (.ok args) = .ok none) ∧
    (∀ (args : HashIndexArgs) (raw : RawBlock), blockByHash args.hash = some raw →
      args.index < 0 ∨ (raw.uncles.length : Int) ≤ args.index →
      GetUncleByBlockHashAndIndex blockByHash td (.ok args) = .ok none) ∧
    (∀ (args : BlockNumIndexArgs) (raw : RawBlock),
      blockByNumber args.blockNumber = some raw →
      args.index < 0 ∨ (raw.uncles.length : Int) ≤ args.index →
      GetUncleByBlockNumberAndIndex blockByNumber td (.ok args) = .ok none) ∧
    (∀ decoded, GetTransactionByBlockHashAndIndex blockByHash td decoded ≠ .crash) ∧
    (∀ decoded, GetTransactionByBlockNumberAndIndex blockByNumber td decoded ≠ .crash) ∧
    (∀ decoded, GetUncleByBlockHashAndIndex blockByHash td decoded ≠ .crash) ∧
    (∀ decoded, GetUncleByBlockNumberAndIndex blockByNumber td decoded ≠ .crash) := by
  refine ⟨?_, ?_, ?_, ?_, ?_, ?_, ?_, ?_⟩
  · intro args raw hb hidx
    have hc : args.index ≥ ((NewBlockRes raw (td raw.hash) true).transactions.length : Int)
        ∨ args.index < 0 := by
      simp only [NewBlockRes]
      omega
    simp [GetTransactionByBlockHashAndIndex, hb, hc]
  · intro args raw hb hidx
    have hc : args.index ≥ ((NewBlockRes raw (td raw.hash) true).transactions.length : Int)
        ∨ args.index < 0 := by
      simp only [NewBlockRes]
      omega
    simp [GetTransactionByBlockNumberAndIndex, hb, hc]
  · intro args raw hb hidx
    have hc : args.index ≥ ((NewBlockRes raw (td raw.hash) false).uncles.length : Int)
        ∨ args.index < 0 := by
      simp only [NewBlockRes]
      omega
    simp [GetUncleByBlockHashAndIndex, hb, hc]
  · intro args raw hb hidx
    have hc : args.index ≥ ((NewBlockRes raw (td raw.hash) true).uncles.length : Int)
        ∨ args.index < 0 := by
      simp only [NewBlockRes]
      omega
    simp [GetUncleByBlockNumberAndIndex, hb, hc]
  · intro decoded
    cases decoded with
    | error e => simp [GetTransactionByBlockHashAndIndex]
    | ok args =>
      cases hb : blockByHash args.hash with
      | none => simp [GetTransactionByBlockHashAndIndex, hb]
      | some raw =>
        simp only [GetTransactionByBlockHashAndIndex, hb]
        split
        · simp
        · rename_i hneg
          have hlt : args.index.toNat < (NewBlockRes raw (td raw.hash) true).transactions.length := by
            simp only [NewBlockRes] at hneg ⊢
            omega
          rw [List.get?_eq_get hlt]
          simp
  · intro decoded
    cases decoded with
    | error e => simp [GetTransactionByBlockNumberAndIndex]
    | ok args =>
      cases hb : blockByNumber args.blockNumber with
      | none => simp [GetTransactionByBlockNumberAndIndex, hb]
      | some raw =>
        simp only [GetTransactionByBlockNumberAndIndex, hb]
        split
        · simp
        · rename_i hneg
          have hlt : args.index.toNat < (NewBlockRes raw (td raw.hash) true).transactions.length := by
            simp only [NewBlockRes] at hneg ⊢
            omega
          rw [List.get?_eq_get hlt]
          simp
  · intro decoded
    cases decoded with
    | error e => simp [GetUncleByBlockHashAndIndex]
    | ok args =>
      cases hb : blockByHash args.hash with
      | none => simp [GetUncleByBlockHashAndIndex, hb]
      | some raw =>
        simp only [GetUncleByBlockHashAndIndex, hb]
        split
        · simp
        · rename_i hneg
          have hlt : args.index.toNat < (NewBlockRes raw (td raw.hash) false).uncles.length := by
            simp only [NewBlockRes] at hneg ⊢
            omega
          rw [List.get?_eq_get hlt]
          simp
  · intro decoded
    cases decoded with
    | error e => simp [GetUncleByBlockNumberAndIndex]
    | ok args =>
      cases hb : blockByNumber args.blockNumber with
      | none => simp [GetUncleByBlockNumberAndIndex, hb]
      | some raw =>
        simp only [GetUncleByBlockNumberAndIndex, hb]
        split
        · simp
        · rename_i hneg
          have hlt : args.index.toNat < (NewBlockRes raw (td raw.hash) true).uncles.length := by
            simp only [NewBlockRes] at hneg ⊢
            omega
          rw [List.get?_eq_get hlt]
          simp

/-- Witness for C10 against the concrete views: an over-large transaction
index and a negative uncle index both give nil/nil, and the handlers never
reach the crash marker. -/
theorem index_guard_safe_witness :
    GetTransactionByBlockHashAndIndex cBlockByHash cTd (.ok ⟨"ab", 5⟩) = .ok none ∧
    GetUncleByBlockNumberAndIndex cBlockByNumber cTd (.ok ⟨0, -1⟩) = .ok none ∧
    (∀ decoded, GetTransactionByBlockHashAndIndex cBlockByHash cTd decoded ≠ .crash) ∧
    (∀ decoded, GetUncleByBlockNumberAndIndex cBlockByNumber cTd decoded ≠ .crash) :=
  ⟨(index_guard_safe cBlockByHash cBlockByNumber cTd).1 ⟨"ab", 5⟩ cRawBlock
      (by decide) (by decide),
   (index_guard_safe cBlockByHash cBlockByNumber cTd).2.2.2.1 ⟨0, -1⟩ cRawBlock
      (by decide) (by decide),
   (index_guard_safe cBlockByHash cBlockByNumber cTd).2.2.2.2.1,
   (index_guard_safe cBlockByHash cBlockByNumber cTd).2.2.2.2.2.2.2⟩

end GoExpanse
